import Mathlib

/-!
Verification development for the EU4-Autobackup monitoring-and-retention engine
(`eu4_autobackup.py`).  Python strings are modelled as `List Char` (`PyStr`);
file contents are the lossily decoded text of the file (`Option PyStr`, `none`
meaning the file is missing or unreadable, i.e. `open` raises).  Machine floats
(modification times) are modelled as `Int` since the code only compares them
for equality and truthiness.  Fallible OS primitives (`open`, `os.remove`,
`shutil.copy2`, `int()`) are modelled in `Except String`, and each `try/except`
of the source is an explicit `match` on such a result.
-/

abbrev PyStr := List Char

/-- The exact set of characters Python's `str.isspace()` — and hence
`str.strip()` — treats as whitespace: `\t\n\x0b\x0c\r`, the separators
`\x1c`–`\x1f`, space, NEL (`\x85`), NBSP (`\xa0`), and the Unicode
space/line/paragraph separators (checked against `str.isspace` over the
whole codepoint range). -/
def pyWhitespace : List Char :=
  ['\t', '\n', '\x0b', '\x0c', '\r', '\x1c', '\x1d', '\x1e', '\x1f', ' ',
   '\x85', '\xa0', '\u1680', '\u2000', '\u2001', '\u2002', '\u2003',
   '\u2004', '\u2005', '\u2006', '\u2007', '\u2008', '\u2009', '\u200a',
   '\u2028', '\u2029', '\u202f', '\u205f', '\u3000']

/-- Python's whitespace test (`str.isspace()` on a single character). -/
def isPySpace (c : Char) : Bool := decide (c ∈ pyWhitespace)

/-- `s.strip(chars)`: drop the maximal runs of characters satisfying `p` from
both ends, front first. -/
def strip_ends (p : Char → Bool) (l : PyStr) : PyStr :=
  ((l.dropWhile p).reverse.dropWhile p).reverse

/-- Python `str.strip()`. -/
def py_strip (l : PyStr) : PyStr := strip_ends isPySpace l

/-- Python `str.strip('"')`. -/
def py_strip_quotes (l : PyStr) : PyStr := strip_ends (fun c => c = '"') l

/-- Python `str.split(sep)` for a one-character separator: always returns a
nonempty list of fields; `"".split(c) == ['']`. -/
def py_split (sep : Char) : PyStr → List PyStr
  | [] => [[]]
  | c :: cs =>
    match py_split sep cs with
    | [] => [[]]
    | r :: rs => if c = sep then [] :: r :: rs else (c :: r) :: rs

/-- First codepoints of the runs of ten consecutive Unicode decimal digits
(general category `Nd`, Unicode 14.0 as shipped by CPython 3.11) — the
characters Python's `int()` accepts as digits, each with its positional
value, e.g. `int('١٤٤٤') == 1444`.  All 66 runs, checked against
`int(chr(c))` over the whole codepoint range. -/
def pyDigitBases : List Nat :=
  [0x30, 0x660, 0x6F0, 0x7C0, 0x966, 0x9E6, 0xA66, 0xAE6, 0xB66, 0xBE6,
   0xC66, 0xCE6, 0xD66, 0xDE6, 0xE50, 0xED0, 0xF20, 0x1040, 0x1090, 0x17E0,
   0x1810, 0x1946, 0x19D0, 0x1A80, 0x1A90, 0x1B50, 0x1BB0, 0x1C40, 0x1C50,
   0xA620, 0xA8D0, 0xA900, 0xA9D0, 0xA9F0, 0xAA50, 0xABF0, 0xFF10,
   0x104A0, 0x10D30, 0x11066, 0x110F0, 0x11136, 0x111D0, 0x112F0, 0x11450,
   0x114D0, 0x11650, 0x116C0, 0x11730, 0x118E0, 0x11950, 0x11C50, 0x11D50,
   0x11DA0, 0x16A60, 0x16AC0, 0x16B50, 0x1D7CE, 0x1D7D8, 0x1D7E2,
   0x1D7EC, 0x1D7F6, 0x1E140, 0x1E2F0, 0x1E950, 0x1FBF0]

/-- `some v` when `c` is a Unicode decimal digit of value `v` (as computed by
CPython's `int()` via the character's decimal value), else `none`. -/
def py_digit_val? (c : Char) : Option Nat :=
  match pyDigitBases.find? (fun b => b ≤ c.toNat && c.toNat < b + 10) with
  | some b => some (c.toNat - b)
  | none => none

/-- Whether `c` is a decimal digit in Python's sense. -/
def py_is_digit (c : Char) : Bool := (py_digit_val? c).isSome

/-- Digit-run check for Python `int()`: nonempty, all decimal digits or `_`,
starting and ending with a digit, no two consecutive underscores. -/
def no_double_underscore : PyStr → Bool
  | [] => true
  | [_] => true
  | a :: b :: rest => !(a = '_' && b = '_') && no_double_underscore (b :: rest)

def py_digits_ok (l : PyStr) : Bool :=
  !l.isEmpty && l.all (fun c => py_is_digit c || c = '_')
    && (match l.head? with | some c => py_is_digit c | none => false)
    && (match l.getLast? with | some c => py_is_digit c | none => false)
    && no_double_underscore l

def py_digits_val (l : PyStr) : Nat :=
  (l.filter (fun c => c ≠ '_')).foldl
    (fun a c => a * 10 + (py_digit_val? c).getD 0) 0

/-- The whitespace `int()` itself skips around a numeric literal: the
`str.isspace()` set without the separators `\x1c`–`\x1f`
(`int('\x1c5')` raises even though `'\x1c5'.strip()` strips the byte). -/
def pyIntWhitespace : List Char :=
  ['\t', '\n', '\x0b', '\x0c', '\r', ' ', '\x85', '\xa0', '\u1680',
   '\u2000', '\u2001', '\u2002', '\u2003', '\u2004', '\u2005', '\u2006',
   '\u2007', '\u2008', '\u2009', '\u200a', '\u2028', '\u2029', '\u202f',
   '\u205f', '\u3000']

def isPyIntSpace (c : Char) : Bool := decide (c ∈ pyIntWhitespace)

/-- Python `int(s)` on a string: surrounding `int()`-whitespace allowed,
optional ASCII sign, Unicode decimal digits with optional single grouping
underscores; `none` models a `ValueError`. -/
def py_int (s : PyStr) : Option Int :=
  match strip_ends isPyIntSpace s with
  | '+' :: ds => if py_digits_ok ds then some (py_digits_val ds : Int) else none
  | '-' :: ds => if py_digits_ok ds then some (-(py_digits_val ds : Int)) else none
  | ds => if py_digits_ok ds then some (py_digits_val ds : Int) else none

/-- Universal-newline normalisation performed by the text-mode fallback read:
`\r\n` and lone `\r` both become `\n`. -/
def normNl : PyStr → PyStr
  | [] => []
  | c :: rest =>
    if c = '\r' then
      match rest with
      | '\n' :: rest2 => '\n' :: normNl rest2
      | [] => ['\n']
      | c2 :: rest2 => '\n' :: normNl (c2 :: rest2)
    else c :: normNl rest

/-- `open(path)` / reading the file: `none` content means the read raises
(`FileNotFoundError`, `PermissionError`, ...). -/
def py_open : Option PyStr → Except String PyStr
  | some text => .ok text
  | none => .error "OSError"

/-- `int()` as a fallible call (raises `ValueError` on parse failure). -/
def py_int_exc (s : PyStr) : Except String Int :=
  match py_int s with
  | some n => .ok n
  | none => .error "ValueError"

/-- `line.split('=')[1].strip().strip('"')` — the value extracted from a
`key=value` line (the text between the first and the second `=`). -/
def line_value (line : PyStr) : PyStr :=
  py_strip_quotes (py_strip ((py_split '=' line).getD 1 []))

/-- `line.strip().startswith('player=')` (first, binary-read pass). -/
def is_player_line1 (line : PyStr) : Bool :=
  "player=".toList.isPrefixOf (py_strip line)

/-- `line.startswith('player=')` (second, text-mode pass: no strip). -/
def is_player_line2 (line : PyStr) : Bool :=
  "player=".toList.isPrefixOf line

/-- `line.strip().startswith('date=')` (first pass). -/
def is_date_line1 (line : PyStr) : Bool :=
  "date=".toList.isPrefixOf (py_strip line)

/-- `line.startswith('date=')` (second pass). -/
def is_date_line2 (line : PyStr) : Bool :=
  "date=".toList.isPrefixOf line

/-- One loop iteration of `get_player_tag`: if the line matches, extract the
value; values `''` and `'---'` are rejected (the Python loop then just
continues with the next line). -/
def tag_of_line (check : PyStr → Bool) (line : PyStr) : Option PyStr :=
  if check line then
    let tag := line_value line
    if tag ≠ [] ∧ tag ≠ "---".toList then some tag else none
  else none

/-- The `for line in ...` scan of `get_player_tag`: first line yielding a
valid tag wins. -/
def find_tag (check : PyStr → Bool) : List PyStr → Option PyStr
  | [] => none
  | line :: rest =>
    match tag_of_line check line with
    | some t => some t
    | none => find_tag check rest

/-- The `for line in ...` scan of `get_save_year`: the first matching line is
taken (the function returns — or raises — on it, never scanning further). -/
def find_date_line (check : PyStr → Bool) : List PyStr → Option PyStr
  | [] => none
  | line :: rest => if check line then some line else find_date_line check rest

/-- Body of `get_player_tag` inside its `try`: binary pass over
`text.split('\n')`, then text-mode pass over universal-newline lines.  The
only fallible step is opening the file. -/
def get_player_tag_body (content : Option PyStr) : Except String (Option PyStr) :=
  match py_open content with
  | .error e => .error e
  | .ok text =>
    match find_tag is_player_line1 (py_split '\n' text) with
    | some t => .ok (some t)
    | none =>
      match find_tag is_player_line2 (py_split '\n' (normNl text)) with
      | some t => .ok (some t)
      | none => .ok none

/-- `get_player_tag`: any exception is caught and `'UNKNOWN'` returned; a scan
that finds nothing also falls through to `'UNKNOWN'`. -/
def get_player_tag (content : Option PyStr) : PyStr :=
  match get_player_tag_body content with
  | .ok (some t) => t
  | .ok none => "UNKNOWN".toList
  | .error _ => "UNKNOWN".toList

/-- Body of `get_save_year` inside its `try`: on the first `date=` line it
parses `int(date_str.split('.')[0])`; a parse failure raises (and is caught by
the wrapper, yielding `None` — the scan never reaches a later `date=` line). -/
def get_save_year_body (content : Option PyStr) : Except String (Option Int) :=
  match py_open content with
  | .error e => .error e
  | .ok text =>
    match find_date_line is_date_line1 (py_split '\n' text) with
    | some line =>
      match py_int_exc ((py_split '.' (line_value line)).headD []) with
      | .error e => .error e
      | .ok y => .ok (some y)
    | none =>
      match find_date_line is_date_line2 (py_split '\n' (normNl text)) with
      | some line =>
        match py_int_exc ((py_split '.' (line_value line)).headD []) with
        | .error e => .error e
        | .ok y => .ok (some y)
      | none => .ok none

/-- `get_save_year`: exceptions caught, `None` returned. -/
def get_save_year (content : Option PyStr) : Option Int :=
  match get_save_year_body content with
  | .ok r => r
  | .error _ => none

/-- Body of `get_backup_year` — textually identical to `get_save_year`'s in
the source. -/
def get_backup_year_body (content : Option PyStr) : Except String (Option Int) :=
  match py_open content with
  | .error e => .error e
  | .ok text =>
    match find_date_line is_date_line1 (py_split '\n' text) with
    | some line =>
      match py_int_exc ((py_split '.' (line_value line)).headD []) with
      | .error e => .error e
      | .ok y => .ok (some y)
    | none =>
      match find_date_line is_date_line2 (py_split '\n' (normNl text)) with
      | some line =>
        match py_int_exc ((py_split '.' (line_value line)).headD []) with
        | .error e => .error e
        | .ok y => .ok (some y)
      | none => .ok none

/-- `get_backup_year(filename)`: extract the in-game year of a backup file. -/
def get_backup_year (content : Option PyStr) : Option Int :=
  match get_backup_year_body content with
  | .ok r => r
  | .error _ => none

/-- An entry of the backup directory: its filename and the (decoded) content
`get_backup_year` would read from it (`none` = unreadable / a directory). -/
structure DirEntry where
  name : PyStr
  content : Option PyStr
deriving DecidableEq

/-- Log events the engine emits (the `log(...)` calls that report actions). -/
inductive Event where
  | cleaned (fname : PyStr) (year : Int)
deriving DecidableEq

/-- The `keep_years` setting as it can arrive from the JSON settings file:
a string, an integer, or `None`/missing. -/
inductive KeepYears where
  | str (s : PyStr)
  | int (n : Int)
  | noneV
deriving DecidableEq

/-- Python `int(keep_years)`: `none` models the `TypeError`/`ValueError`. -/
def py_int_of : KeepYears → Option Int
  | .str s => py_int s
  | .int n => some n
  | .noneV => none

/-- `fname.endswith('.eu4')`. -/
def eu4_suffix (n : PyStr) : Bool := ".eu4".toList.isSuffixOf n

/-- `os.remove`: may raise (permission, concurrent deletion); which removals
fail is an environment oracle `removeFails`. -/
def os_remove (removeFails : PyStr → Bool) (fname : PyStr) : Except String Unit :=
  if removeFails fname then .error "OSError" else .ok ()

/-- The `for fname in os.listdir(backup_dir)` scan of `cleanup_old_backups`:
each `.eu4` entry has its year extracted; if it is older than the cutoff the
entry is removed, a removal failure being caught by the inner
`try/except: pass` (the entry then simply stays).  Returns the surviving
entries and the emitted deletion log events. -/
def cleanup_scan (removeFails : PyStr → Bool) (current_year keep : Int) :
    List DirEntry → List DirEntry × List Event
  | [] => ([], [])
  | e :: rest =>
    let r := cleanup_scan removeFails current_year keep rest
    if eu4_suffix e.name then
      match get_backup_year e.content with
      | some byr =>
        if byr < current_year - keep then
          match os_remove removeFails e.name with
          | .ok _ => (r.1, Event.cleaned e.name byr :: r.2)
          | .error _ => (e :: r.1, r.2)
        else (e :: r.1, r.2)
      | none => (e :: r.1, r.2)
    else (e :: r.1, r.2)

/-- `cleanup_old_backups(backup_dir, current_year, keep_years)` over the
directory listing: `'all'` is an immediate no-op, a `keep_years` on which
`int()` raises is an immediate no-op (`except (TypeError, ValueError):
return`), otherwise the scan runs. -/
def cleanup_old_backups (removeFails : PyStr → Bool) (listing : List DirEntry)
    (current_year : Int) (keep_years : KeepYears) :
    Except String (List DirEntry × List Event) :=
  if keep_years = KeepYears.str "all".toList then .ok (listing, [])
  else
    match py_int_of keep_years with
    | none => .ok (listing, [])
    | some keep => .ok (cleanup_scan removeFails current_year keep listing)

/-- The claim-side deletion predicate: name ends in `.eu4`, recovered year
present and strictly below `current_year - keep`. -/
def should_delete (current_year keep : Int) (e : DirEntry) : Bool :=
  eu4_suffix e.name &&
    match get_backup_year e.content with
    | some byr => decide (byr < current_year - keep)
    | none => false

/-- The log event `cleanup_scan` emits for an entry, if any. -/
def prune_event (removeFails : PyStr → Bool) (current_year keep : Int)
    (e : DirEntry) : Option Event :=
  if should_delete current_year keep e && !removeFails e.name then
    match get_backup_year e.content with
    | some byr => some (Event.cleaned e.name byr)
    | none => none
  else none

/-- Result of `os.path.getmtime(path)`: found with a timestamp, or raising
`FileNotFoundError`. -/
inductive MtimeResult where
  | found (t : Int)
  | missing
deriving DecidableEq

/-- `get_mtime(path)`: the one exception is caught and mapped to `None`. -/
def get_mtime : MtimeResult → Option Int
  | .found t => some t
  | .missing => none

/-- Python truthiness of the float-or-`None` mtime: `None` and `0.0` are
falsy. -/
def py_truthy_float : Option Int → Bool
  | none => false
  | some t => t != 0

/-- `shutil.copy2(SOURCE, backup_path)`: raises on disk-full / permission /
vanished source; whether it fails on this tick is the `copyFails` oracle. -/
def shutil_copy2 (copyFails : Bool) : Except String Unit :=
  if copyFails then .error "copy failed" else .ok ()

/-- A wall-clock timestamp as consumed by
`time.strftime('%Y-%m-%d_%H-%M-%S')`: one-second granularity. -/
structure Timestamp where
  year : Nat
  month : Nat
  day : Nat
  hour : Nat
  minute : Nat
  second : Nat
deriving DecidableEq

/-- Zero-padding of a strftime field to the given width. -/
def pad (width : Nat) (n : Nat) : PyStr :=
  let s := (toString n).toList
  List.replicate (width - s.length) '0' ++ s

/-- `time.strftime('%Y-%m-%d_%H-%M-%S')`. -/
def strftime (t : Timestamp) : PyStr :=
  pad 4 t.year ++ "-".toList ++ pad 2 t.month ++ "-".toList ++ pad 2 t.day
    ++ "_".toList ++ pad 2 t.hour ++ "-".toList ++ pad 2 t.minute
    ++ "-".toList ++ pad 2 t.second

/-- The environment of one change-check tick: what `os.path.getmtime` returns
for the source, the source file's decoded content, whether the copy would
fail, the backup directory listing, the removal-failure oracle, and the
current wall-clock time. -/
structure TickInput where
  src : MtimeResult
  srcContent : Option PyStr
  copyFails : Bool
  listing : List DirEntry
  removeFails : PyStr → Bool
  ts : Timestamp

/-- Observable outcome of one change check: the backup file written this tick
(name and copied content), the value of `last_mtime` afterwards, the backup
directory listing afterwards, and the emitted prune events. -/
structure CheckResult where
  backup : Option DirEntry
  last_mtime : Option Int
  listing : List DirEntry
  events : List Event
deriving DecidableEq

/-- One change check of the main monitoring loop (the body guarded by
`heartbeat % interval == 0`): sample the mtime; if it is truthy and differs
from `last_mtime`, extract the tag, build the backup filename, copy (an
uncaught failure propagates — only `KeyboardInterrupt` is handled around the
loop), then prune if the current in-game year is known, and finally update
`last_mtime`. -/
def change_check (inp : TickInput) (last_mtime : Option Int)
    (keep_years : KeepYears) : Except String CheckResult :=
  let current_mtime := get_mtime inp.src
  if py_truthy_float current_mtime && current_mtime != last_mtime then
    let tag := get_player_tag inp.srcContent
    let backup_name :=
      "mp_autosave_".toList ++ tag ++ "_".toList ++ strftime inp.ts
        ++ ".eu4".toList
    match shutil_copy2 inp.copyFails with
    | .error e => .error e
    | .ok _ =>
      let entry : DirEntry := ⟨backup_name, inp.srcContent⟩
      let listing1 := inp.listing ++ [entry]
      match get_save_year inp.srcContent with
      | some current_year =>
        match cleanup_old_backups inp.removeFails listing1 current_year keep_years with
        | .error e => .error e
        | .ok (listing2, evs) => .ok ⟨some entry, current_mtime, listing2, evs⟩
      | none => .ok ⟨some entry, current_mtime, listing1, []⟩
  else
    .ok ⟨none, last_mtime, inp.listing, []⟩

/-- The monitoring loop over a sequence of change-check ticks, threading
`last_mtime`; an exception escaping a tick terminates the loop (the
surrounding handler only catches `KeyboardInterrupt`).  Returns the backups
written per tick. -/
def monitor_loop (keep_years : KeepYears) (last_mtime : Option Int) :
    List TickInput → Except String (List (Option DirEntry))
  | [] => .ok []
  | i :: rest =>
    match change_check i last_mtime keep_years with
    | .error e => .error e
    | .ok r =>
      match monitor_loop keep_years r.last_mtime rest with
      | .error e => .error e
      | .ok out => .ok (r.backup :: out)

/-! ## Concrete sample inputs used by witnesses and counterexamples -/

/-- A backup directory with in-game years 1500, 1510, 1522, one unreadable
`.eu4` entry and one non-`.eu4` entry (the spec's retention scenario). -/
def sampleBackups : List DirEntry :=
  [⟨"mp_autosave_SWE_a.eu4".toList, some "date=1500.1.1".toList⟩,
   ⟨"mp_autosave_SWE_b.eu4".toList, some "date=1510.1.1".toList⟩,
   ⟨"mp_autosave_SWE_c.eu4".toList, some "date=1522.1.1".toList⟩,
   ⟨"unreadable.eu4".toList, none⟩,
   ⟨"notes.txt".toList, some "date=1.1.1".toList⟩]

/-- A change-check tick whose mtime equals the last known one but whose
content differs from anything seen before. -/
def sameMtimeTick : TickInput :=
  ⟨.found 7, some "player=FRA\ndate=9999.1.1".toList, false,
   [⟨"old.eu4".toList, some "date=1.1.1".toList⟩], fun _ => false,
   ⟨2025, 10, 12, 10, 0, 0⟩⟩

/-- A change-check tick on which the source file is missing. -/
def missingSourceTick : TickInput :=
  ⟨.missing, none, false, [⟨"old.eu4".toList, some "date=1.1.1".toList⟩],
   fun _ => false, ⟨2025, 10, 12, 10, 1, 0⟩⟩

/-- A change-check tick with a changed mtime on which `shutil.copy2` fails. -/
def tick_copy_fail : TickInput :=
  ⟨.found 5, some "date=1444.1.1".toList, true, [], fun _ => false,
   ⟨2025, 1, 1, 0, 0, 0⟩⟩

/-- A later tick whose backup would succeed, were it ever reached. -/
def tick_copy_ok : TickInput :=
  ⟨.found 6, some "date=1444.1.1".toList, false, [], fun _ => false,
   ⟨2025, 1, 1, 0, 1, 0⟩⟩

/-- The spec's end-to-end scenario tick: `player=SWE`, `date=1523.4.12`,
changed mtime, working copy. -/
def swedenTick : TickInput :=
  ⟨.found 5, some "player=SWE\ndate=1523.4.12".toList, false, [],
   fun _ => false, ⟨2025, 10, 12, 9, 30, 0⟩⟩

/-- The backup the sweden tick writes. -/
def swedenEntry : DirEntry :=
  ⟨"mp_autosave_SWE_2025-10-12_09-30-00.eu4".toList, swedenTick.srcContent⟩

/-- The full outcome of the sweden tick under retention 10. -/
def swedenResult : CheckResult :=
  ⟨some swedenEntry, some 5, [swedenEntry], []⟩

/-! ## Helper lemmas -/

theorem py_split_ne_nil (sep : Char) (l : PyStr) : py_split sep l ≠ [] := by
  cases l with
  | nil => simp [py_split]
  | cons c cs =>
    unfold py_split
    cases h : py_split sep cs with
    | nil => simp
    | cons r rs => dsimp; split <;> simp

theorem py_split_no_sep (sep : Char) (l : PyStr) (h : sep ∉ l) :
    py_split sep l = [l] := by
  induction l with
  | nil => rfl
  | cons c cs ih =>
    have hc : c ≠ sep := fun hc => h (hc ▸ List.mem_cons_self c cs)
    have ihs : py_split sep cs = [cs] := ih (fun hm => h (List.mem_cons_of_mem c hm))
    unfold py_split
    rw [ihs]
    simp [fun hcc => hc hcc]

theorem py_split_append_sep (sep : Char) (a b : PyStr) :
    py_split sep (a ++ sep :: b) = py_split sep a ++ py_split sep b := by
  induction a with
  | nil =>
    simp only [List.nil_append]
    cases h : py_split sep b with
    | nil => exact absurd h (py_split_ne_nil sep b)
    | cons r rs => simp [py_split, h]
  | cons c a' ih =>
    obtain ⟨r, rs, h⟩ : ∃ r rs, py_split sep a' = r :: rs := by
      cases hh : py_split sep a' with
      | nil => exact absurd hh (py_split_ne_nil sep a')
      | cons r rs => exact ⟨r, rs, rfl⟩
    simp only [List.cons_append, py_split, List.append_eq, ih, h]
    split <;> simp

theorem find_date_line_first (check : PyStr → Bool) (pre post : List PyStr)
    (l : PyStr) (hpre : ∀ x ∈ pre, check x = false) (hl : check l = true) :
    find_date_line check (pre ++ l :: post) = some l := by
  induction pre with
  | nil => simp [find_date_line, hl]
  | cons p ps ih =>
    have hp : check p = false := hpre p (List.mem_cons_self p ps)
    simp only [List.cons_append, find_date_line, hp]
    exact ih (fun x hx => hpre x (List.mem_cons_of_mem p hx))

theorem find_tag_first (check : PyStr → Bool) (pre post : List PyStr)
    (line t : PyStr) (hpre : ∀ x ∈ pre, tag_of_line check x = none)
    (hl : tag_of_line check line = some t) :
    find_tag check (pre ++ line :: post) = some t := by
  induction pre with
  | nil => simp [find_tag, hl]
  | cons p ps ih =>
    have hp : tag_of_line check p = none := hpre p (List.mem_cons_self p ps)
    simp only [List.cons_append, find_tag, hp]
    exact ih (fun x hx => hpre x (List.mem_cons_of_mem p hx))

theorem find_tag_none (check : PyStr → Bool) (lines : List PyStr)
    (h : ∀ l ∈ lines, tag_of_line check l = none) :
    find_tag check lines = none := by
  induction lines with
  | nil => rfl
  | cons l ls ih =>
    have hl : tag_of_line check l = none := h l (List.mem_cons_self l ls)
    simp only [find_tag, hl]
    exact ih (fun x hx => h x (List.mem_cons_of_mem l hx))

theorem isPrefixOf_append_self (a z : PyStr) : a.isPrefixOf (a ++ z) = true := by
  simp [List.isPrefixOf_iff_prefix]

theorem eq_append_of_isPrefixOf (a l : PyStr) (h : a.isPrefixOf l = true) :
    ∃ t, l = a ++ t := by
  rw [List.isPrefixOf_iff_prefix] at h
  obtain ⟨t, ht⟩ := h
  exact ⟨t, ht.symm⟩

theorem dropWhile_id_of_head (p : Char → Bool) (l : PyStr)
    (h : ∀ c, l.head? = some c → p c = false) : l.dropWhile p = l := by
  cases l with
  | nil => rfl
  | cons c t => simp [List.dropWhile_cons, h c rfl]

theorem strip_ends_eq_self (p : Char → Bool) (l : PyStr)
    (hh : ∀ c, l.head? = some c → p c = false)
    (hl : ∀ c, l.getLast? = some c → p c = false) :
    strip_ends p l = l := by
  unfold strip_ends
  rw [dropWhile_id_of_head p l hh]
  rw [dropWhile_id_of_head p l.reverse (fun c hc => hl c (by rwa [List.head?_reverse] at hc))]
  exact l.reverse_reverse

theorem strip_ends_keeps_front (p : Char → Bool) (a t : PyStr)
    (hh : ∀ c, a.head? = some c → p c = false)
    (hl : ∀ c, a.getLast? = some c → p c = false) (hne : a ≠ []) :
    a.isPrefixOf (strip_ends p (a ++ t)) = true := by
  unfold strip_ends
  have hfront : (a ++ t).dropWhile p = a ++ t := by
    apply dropWhile_id_of_head
    intro c hc
    cases a with
    | nil => exact absurd rfl hne
    | cons b a' =>
      simp only [List.cons_append, List.head?_cons, Option.some.injEq] at hc
      exact hc ▸ hh b rfl
  rw [hfront, List.reverse_append, List.dropWhile_append]
  have hrev : a.reverse.dropWhile p = a.reverse := by
    apply dropWhile_id_of_head
    intro c hc
    rw [List.head?_reverse] at hc
    exact hl c hc
  split
  · rw [hrev, List.reverse_reverse]
    simp [List.isPrefixOf_iff_prefix]
  · rw [List.reverse_append, List.reverse_reverse]
    exact isPrefixOf_append_self a _

theorem is_player_line2_implies1 (l : PyStr) (h : is_player_line2 l = true) :
    is_player_line1 l = true := by
  obtain ⟨t, ht⟩ := eq_append_of_isPrefixOf _ l h
  subst ht
  unfold is_player_line1 py_strip
  apply strip_ends_keeps_front
  · intro c hc; simp at hc; subst hc; rfl
  · intro c hc; simp at hc; subst hc; rfl
  · simp

theorem tag_of_line2_none (l : PyStr)
    (h1 : tag_of_line is_player_line1 l = none) :
    tag_of_line is_player_line2 l = none := by
  by_cases h2 : is_player_line2 l = true
  · have h1' := is_player_line2_implies1 l h2
    unfold tag_of_line at h1 ⊢
    rw [h1'] at h1
    rw [h2]
    simpa using h1
  · unfold tag_of_line
    simp [Bool.eq_false_iff.2 h2]

theorem normNl_eq_self (l : PyStr) (h : '\r' ∉ l) : normNl l = l := by
  induction l with
  | nil => rfl
  | cons c t ih =>
    have hc : c ≠ '\r' := fun hcc => h (hcc ▸ List.mem_cons_self c t)
    unfold normNl
    rw [if_neg hc, ih (fun hm => h (List.mem_cons_of_mem c hm))]

theorem getLast?_append_cons (a : PyStr) (c : Char) (b : PyStr) :
    (a ++ c :: b).getLast? = (c :: b).getLast? := by
  rw [List.getLast?_append]
  cases hb : (c :: b).getLast? with
  | none => simp [List.getLast?_eq_none_iff] at hb
  | some x => rfl

theorem cleanup_scan_eq (rf : PyStr → Bool) (y k : Int) (l : List DirEntry) :
    cleanup_scan rf y k l =
      (l.filter (fun e => !(should_delete y k e && !rf e.name)),
       l.filterMap (prune_event rf y k)) := by
  induction l with
  | nil => rfl
  | cons e rest ih =>
    simp only [cleanup_scan, ih, List.filter_cons, List.filterMap_cons]
    by_cases h1 : eu4_suffix e.name
    · cases h2 : get_backup_year e.content with
      | some byr =>
        by_cases h3 : byr < y - k
        · by_cases h4 : rf e.name
          · simp [os_remove, h1, h2, h3, h4, should_delete, prune_event]
          · simp [os_remove, h1, h2, h3, h4, should_delete, prune_event]
        · simp [h1, h2, h3, should_delete, prune_event]
      | none => simp [h1, h2, should_delete, prune_event]
    · simp [h1, should_delete, prune_event]

theorem cleanup_old_backups_int_eq (rf : PyStr → Bool) (l : List DirEntry)
    (y N : Int) :
    cleanup_old_backups rf l y (.int N) =
      .ok (l.filter (fun e => !(should_delete y N e && !rf e.name)),
           l.filterMap (prune_event rf y N)) := by
  have h1 : KeepYears.int N ≠ KeepYears.str "all".toList := by simp
  simp [cleanup_old_backups, h1, py_int_of, cleanup_scan_eq]

theorem cleanup_old_backups_ok (rf : PyStr → Bool) (l : List DirEntry)
    (y : Int) (k : KeepYears) :
    ∃ r, cleanup_old_backups rf l y k = .ok r := by
  by_cases hk : k = KeepYears.str "all".toList
  · exact ⟨(l, []), by simp [cleanup_old_backups, hk]⟩
  · cases hc : py_int_of k with
    | none => exact ⟨(l, []), by simp [cleanup_old_backups, hk, hc]⟩
    | some keep =>
      refine ⟨cleanup_scan rf y keep l, ?_⟩
      unfold cleanup_old_backups
      rw [if_neg hk, hc]

theorem get_player_tag_cases (c : Option PyStr) :
    get_player_tag c = "UNKNOWN".toList ∨
      get_player_tag_body c = .ok (some (get_player_tag c)) := by
  cases h : get_player_tag_body c with
  | error e => left; simp [get_player_tag, h]
  | ok r =>
    cases r with
    | none => left; simp [get_player_tag, h]
    | some t => right; simp [get_player_tag, h]

/-! ## Claim theorems -/

/-- C2: on every change-check tick where the sampled current modification
time equals the last known modification time, no backup is written —
regardless of any difference in file content (which is universally
quantified here via `inp.srcContent`): the modification timestamp is the sole
change trigger.  The tick also leaves `last_mtime`, the backup directory and
the event stream untouched. -/
theorem change_check_same_mtime_skips (inp : TickInput) (last : Option Int)
    (keep : KeepYears) (h : get_mtime inp.src = last) :
    change_check inp last keep = .ok ⟨none, last, inp.listing, []⟩ := by
  simp [change_check, h]

/-- C2 witness: a concrete tick with unchanged mtime `7` but fresh content
writes nothing. -/
theorem change_check_same_mtime_skips_witness :
    get_mtime sameMtimeTick.src = some 7 ∧
    change_check sameMtimeTick (some 7) (KeepYears.int 1) =
      .ok ⟨none, some 7, sameMtimeTick.listing, []⟩ :=
  ⟨rfl, change_check_same_mtime_skips sameMtimeTick (some 7) (KeepYears.int 1) rfl⟩

/-- C8: a change-check tick on which the source file's mtime cannot be read
(file missing, so `get_mtime` yields `None`) is treated as "no change": no
backup is written, no error escapes, `last_mtime` is unchanged, and the
monitoring loop simply continues with the remaining ticks. -/
theorem change_check_missing_source_skips (inp : TickInput) (last : Option Int)
    (keep : KeepYears) (rest : List TickInput) (h : inp.src = .missing) :
    change_check inp last keep = .ok ⟨none, last, inp.listing, []⟩ ∧
    monitor_loop keep last (inp :: rest) =
      Except.map (fun out => (none : Option DirEntry) :: out)
        (monitor_loop keep last rest) := by
  have h1 : change_check inp last keep = .ok ⟨none, last, inp.listing, []⟩ := by
    simp [change_check, h, get_mtime, py_truthy_float]
  refine ⟨h1, ?_⟩
  simp only [monitor_loop, h1]
  cases monitor_loop keep last rest <;> rfl

/-- C8 witness: a concrete missing-source tick is skipped and monitoring
continues. -/
theorem change_check_missing_source_skips_witness :
    missingSourceTick.src = .missing ∧
    (change_check missingSourceTick (some 42) (KeepYears.int 5) =
        .ok ⟨none, some 42, missingSourceTick.listing, []⟩ ∧
      monitor_loop (KeepYears.int 5) (some 42) [missingSourceTick] =
        Except.map (fun out => (none : Option DirEntry) :: out)
          (monitor_loop (KeepYears.int 5) (some 42) [])) :=
  ⟨rfl, change_check_missing_source_skips missingSourceTick (some 42)
    (KeepYears.int 5) [] rfl⟩

/-- C10: for every retention value that is neither the string `'all'` nor
convertible by `int()` (e.g. `None` or a non-numeric string),
`cleanup_old_backups` is a silent no-op: it deletes nothing, raises nothing
and reports nothing. -/
theorem cleanup_old_backups_invalid_retention (rf : PyStr → Bool)
    (l : List DirEntry) (y : Int) (k : KeepYears)
    (hall : k ≠ KeepYears.str "all".toList) (hconv : py_int_of k = none) :
    cleanup_old_backups rf l y k = .ok (l, []) := by
  simp [cleanup_old_backups, hall, hconv]

/-- C10 witness: retention `None` (missing/`null` setting) leaves an old
backup untouched and emits nothing. -/
theorem cleanup_old_backups_invalid_retention_witness :
    KeepYears.noneV ≠ KeepYears.str "all".toList ∧
    py_int_of KeepYears.noneV = none ∧
    cleanup_old_backups (fun _ => false)
        [⟨"a.eu4".toList, some "date=1500.1.1".toList⟩] 1523 KeepYears.noneV =
      .ok ([⟨"a.eu4".toList, some "date=1500.1.1".toList⟩], []) :=
  ⟨by decide, rfl,
    cleanup_old_backups_invalid_retention (fun _ => false)
      [⟨"a.eu4".toList, some "date=1500.1.1".toList⟩] 1523 KeepYears.noneV
      (by decide) rfl⟩

/-- C7: pruning is best-effort: for every backup directory listing and every
pattern of per-entry deletion failures (`rf`), the scan never raises, never
aborts, and decides every listed entry purely by its own eligibility — an
entry whose deletion fails merely stays, and later entries are still
processed.  Moreover the whole prune returns normally for every retention
value. -/
theorem cleanup_old_backups_best_effort (rf : PyStr → Bool)
    (l : List DirEntry) (y N : Int) :
    cleanup_old_backups rf l y (.int N) =
      .ok (l.filter (fun e => !(should_delete y N e && !rf e.name)),
           l.filterMap (prune_event rf y N)) ∧
    ∀ k, ∃ r, cleanup_old_backups rf l y k = .ok r :=
  ⟨cleanup_old_backups_int_eq rf l y N, fun k => cleanup_old_backups_ok rf l y k⟩

/-- C6: metadata extraction never raises — a missing or unreadable file
(content `none`, i.e. `open` raises) yields the sentinel `'UNKNOWN'` tag and
an absent year, and whenever the underlying extraction body raises, the
caught result is likewise `'UNKNOWN'` / absent. -/
theorem metadata_extraction_never_raises (c : Option PyStr) :
    (c = none → get_player_tag c = "UNKNOWN".toList ∧ get_save_year c = none) ∧
    (∀ e, get_player_tag_body c = .error e →
      get_player_tag c = "UNKNOWN".toList) ∧
    (∀ e, get_save_year_body c = .error e → get_save_year c = none) := by
  refine ⟨?_, ?_, ?_⟩
  · rintro rfl
    exact ⟨rfl, rfl⟩
  · intro e he
    simp [get_player_tag, he]
  · intro e he
    simp [get_save_year, he]

/-- C6 witness: the missing-file case concretely. -/
theorem metadata_extraction_never_raises_witness :
    get_player_tag none = "UNKNOWN".toList ∧ get_save_year none = none :=
  (metadata_extraction_never_raises none).1 rfl

/-- C1: for every backup directory listing, current year `Y` and positive
integer retention `N` (with deletions succeeding), pruning deletes exactly
the entries whose name ends in `.eu4` and whose recovered in-game year is
present and `< Y - N`; every other entry — `.eu4` with year `≥ Y - N`,
undeterminable year, or non-`.eu4` name — is retained; the surviving set is
the same for any scan order; and retention `'all'` deletes nothing. -/
theorem cleanup_old_backups_retention (y N : Int) (hN : 0 < N)
    (l l2 : List DirEntry) (hp : l.Perm l2) :
    cleanup_old_backups (fun _ => false) l y (.int N) =
      .ok (l.filter (fun e => !should_delete y N e),
           l.filterMap (prune_event (fun _ => false) y N)) ∧
    (∃ s2 evs2, cleanup_old_backups (fun _ => false) l2 y (.int N) =
        .ok (s2, evs2) ∧ s2.Perm (l.filter (fun e => !should_delete y N e))) ∧
    (∀ rf, cleanup_old_backups rf l y (.str "all".toList) = .ok (l, [])) := by
  have hpred : ∀ l' : List DirEntry,
      (l'.filter (fun e => !(should_delete y N e && !(fun _ : PyStr => false) e.name)))
        = l'.filter (fun e => !should_delete y N e) := by
    intro l'
    apply List.filter_congr
    intro e _
    simp
  refine ⟨?_, ?_, ?_⟩
  · have h := cleanup_old_backups_int_eq (fun _ => false) l y N
    rwa [hpred l] at h
  · refine ⟨l2.filter (fun e => !should_delete y N e),
      l2.filterMap (prune_event (fun _ => false) y N), ?_, ?_⟩
    · have h := cleanup_old_backups_int_eq (fun _ => false) l2 y N
      rwa [hpred l2] at h
    · exact (hp.filter _).symm
  · intro rf
    simp [cleanup_old_backups]

/-- C1 witness: years `{1500, 1510, 1522}`, an unreadable `.eu4` and a
`.txt` entry, `Y = 1523`, `N = 10` (cutoff 1513), scanned also in reverse
order. -/
theorem cleanup_old_backups_retention_witness :
    (0 : Int) < 10 ∧ sampleBackups.Perm sampleBackups.reverse ∧
    (cleanup_old_backups (fun _ => false) sampleBackups 1523 (.int 10) =
        .ok (sampleBackups.filter (fun e => !should_delete 1523 10 e),
             sampleBackups.filterMap (prune_event (fun _ => false) 1523 10)) ∧
      (∃ s2 evs2, cleanup_old_backups (fun _ => false) sampleBackups.reverse
          1523 (.int 10) = .ok (s2, evs2) ∧
          s2.Perm (sampleBackups.filter (fun e => !should_delete 1523 10 e))) ∧
      (∀ rf, cleanup_old_backups rf sampleBackups 1523 (.str "all".toList) =
        .ok (sampleBackups, []))) :=
  ⟨by decide, (List.reverse_perm sampleBackups).symm,
    cleanup_old_backups_retention 1523 10 (by decide) sampleBackups
      sampleBackups.reverse (List.reverse_perm sampleBackups).symm⟩

/-- C3 counterexample: with a changed mtime and a failing copy, the
monitoring loop does not log-and-continue — it terminates with the copy
error, and the subsequent (healthy) tick is never processed.  This refutes
the claim that a copy failure is treated as non-fatal by the caller: the
loop's only handler catches `KeyboardInterrupt`. -/
theorem monitor_loop_dies_on_copy_failure :
    monitor_loop (KeepYears.str "all".toList) none [tick_copy_fail, tick_copy_ok]
      = .error "copy failed" := by
  rfl

/-- C3 (amended): on every change-check tick where a backup is attempted
(truthy, changed mtime) and the copy fails, the failure propagates: the tick
evaluates to the copy error and the monitoring loop terminates with it,
processing none of the remaining ticks. -/
theorem copy_failure_propagates (inp : TickInput) (last : Option Int)
    (keep : KeepYears) (rest : List TickInput)
    (htruthy : py_truthy_float (get_mtime inp.src) = true)
    (hchanged : get_mtime inp.src ≠ last)
    (hfail : inp.copyFails = true) :
    change_check inp last keep = .error "copy failed" ∧
    monitor_loop keep last (inp :: rest) = .error "copy failed" := by
  have h1 : change_check inp last keep = .error "copy failed" := by
    have hcond : (py_truthy_float (get_mtime inp.src)
        && (get_mtime inp.src != last)) = true := by
      simp [htruthy, bne_iff_ne, hchanged]
    simp [change_check, hcond, shutil_copy2, hfail]
  refine ⟨h1, ?_⟩
  simp [monitor_loop, h1]

/-- C3 witness: the concrete failing tick satisfies the amended theorem's
hypotheses. -/
theorem copy_failure_propagates_witness :
    py_truthy_float (get_mtime tick_copy_fail.src) = true ∧
    get_mtime tick_copy_fail.src ≠ none ∧
    tick_copy_fail.copyFails = true ∧
    (change_check tick_copy_fail none (KeepYears.str "all".toList) =
        .error "copy failed" ∧
      monitor_loop (KeepYears.str "all".toList) none [tick_copy_fail] =
        .error "copy failed") :=
  ⟨rfl, by decide, rfl,
    copy_failure_propagates tick_copy_fail none (KeepYears.str "all".toList)
      [] rfl (by decide) rfl⟩

/-- C9: every backup written by a change check is a copy of the source file's
content placed in the backup directory under the exact name
`mp_autosave_<TAG>_<YYYY-MM-DD_HH-MM-SS>.eu4`, where `<TAG>` is the extracted
player tag or the literal `UNKNOWN` and the timestamp (`strftime`) has
one-second granularity. -/
theorem written_backup_filename (inp : TickInput) (last : Option Int)
    (keep : KeepYears) (r : CheckResult) (e : DirEntry)
    (h : change_check inp last keep = .ok r) (hb : r.backup = some e) :
    e.name = "mp_autosave_".toList ++ get_player_tag inp.srcContent
        ++ "_".toList ++ strftime inp.ts ++ ".eu4".toList ∧
    e.content = inp.srcContent ∧
    (get_player_tag inp.srcContent = "UNKNOWN".toList ∨
      get_player_tag_body inp.srcContent =
        .ok (some (get_player_tag inp.srcContent))) := by
  by_cases hcond : (py_truthy_float (get_mtime inp.src)
      && (get_mtime inp.src != last)) = true
  · cases hcopy : shutil_copy2 inp.copyFails with
    | error err => simp [change_check, hcond, hcopy] at h
    | ok u =>
      cases hyear : get_save_year inp.srcContent with
      | none =>
        simp only [change_check, hcond, if_true, hcopy, hyear] at h
        injection h with h2
        subst h2
        simp only [Option.some.injEq] at hb
        subst hb
        exact ⟨rfl, rfl, get_player_tag_cases inp.srcContent⟩
      | some cy =>
        obtain ⟨⟨l2, evs⟩, hcl⟩ := cleanup_old_backups_ok inp.removeFails
          (inp.listing ++ [⟨"mp_autosave_".toList ++ get_player_tag inp.srcContent
            ++ "_".toList ++ strftime inp.ts ++ ".eu4".toList, inp.srcContent⟩]) cy keep
        simp only [change_check, hcond, if_true, hcopy, hyear, hcl] at h
        injection h with h2
        subst h2
        simp only [Option.some.injEq] at hb
        subst hb
        exact ⟨rfl, rfl, get_player_tag_cases inp.srcContent⟩
  · simp only [change_check, hcond, if_false] at h
    injection h with h2
    subst h2
    simp at hb

/-- C9 witness: the spec's scenario tick (`player=SWE`, `date=1523.4.12`)
yields `mp_autosave_SWE_2025-10-12_09-30-00.eu4` carrying the source
content. -/
theorem written_backup_filename_witness :
    change_check swedenTick none (KeepYears.int 10) = .ok swedenResult ∧
    swedenResult.backup = some swedenEntry ∧
    (swedenEntry.name
        = "mp_autosave_".toList ++ get_player_tag swedenTick.srcContent
            ++ "_".toList ++ strftime swedenTick.ts ++ ".eu4".toList ∧
      swedenEntry.content = swedenTick.srcContent ∧
      (get_player_tag swedenTick.srcContent = "UNKNOWN".toList ∨
        get_player_tag_body swedenTick.srcContent =
          .ok (some (get_player_tag swedenTick.srcContent)))) :=
  ⟨rfl, rfl,
    written_backup_filename swedenTick none (KeepYears.int 10) swedenResult
      swedenEntry rfl rfl⟩

theorem digit_not_pyspace (c : Char) (h : c.isDigit = true) :
    isPySpace c = false := by
  cases hs : isPySpace c
  · rfl
  · exfalso
    simp only [isPySpace] at hs
    have hmem : c ∈ pyWhitespace := of_decide_eq_true hs
    have hall : ∀ w ∈ pyWhitespace, w.isDigit = false := by decide
    rw [hall c hmem] at h
    exact absurd h (by decide)

theorem digit_ne_of (c d : Char) (h : c.isDigit = true)
    (hd : d.isDigit = false) : c ≠ d := by
  intro hcd
  rw [hcd] at h
  rw [h] at hd
  exact absurd hd (by decide)

/-- C4 counterexample: the file `date=abc\ndate=1444.1.1` contains the line
`date=1444.1.1` whose year `1444` parses, yet `get_save_year` returns no
year: the scan commits to the first `date=` line, whose failing `int()` call
aborts the whole extraction. -/
theorem get_save_year_stops_at_first_date :
    get_save_year (some "date=abc\ndate=1444.1.1".toList) = none ∧
    "date=1444.1.1".toList ∈ py_split '\n' "date=abc\ndate=1444.1.1".toList ∧
    py_int "1444".toList = some 1444 :=
  ⟨rfl, by decide, rfl⟩

/-- C4 (amended): year extraction commits to the FIRST line whose trimmed
form starts with `date=`.  For every file whose first such line is
`date=YYYY.M.D` — `YYYY` a nonempty digit string parsed by `int()` as `y`,
the `M.D` tail free of `=` and of trailing whitespace/quote — extraction
returns exactly `y`, regardless of surrounding binary noise before or after
that line. -/
theorem get_save_year_first_date_line (text : PyStr) (pre post : List PyStr)
    (ystr rest : PyStr) (y : Int)
    (hsplit : py_split '\n' text =
      pre ++ ("date=".toList ++ (ystr ++ '.' :: rest)) :: post)
    (hpre : ∀ l ∈ pre, is_date_line1 l = false)
    (hne : ystr ≠ [])
    (hdig : ∀ c ∈ ystr, c.isDigit = true)
    (hy : py_int ystr = some y)
    (hrest_eq : '=' ∉ rest)
    (hrest_last : ∀ c, rest.getLast? = some c →
      isPySpace c = false ∧ c ≠ '"') :
    get_save_year (some text) = some y := by
  have hvlast : ∀ c, (ystr ++ '.' :: rest).getLast? = some c →
      isPySpace c = false ∧ c ≠ '"' := by
    intro c hc
    rw [getLast?_append_cons] at hc
    cases rest with
    | nil =>
      simp only [List.getLast?_singleton, Option.some.injEq] at hc
      subst hc
      exact ⟨by decide, by decide⟩
    | cons r0 rs =>
      rw [show ('.' :: r0 :: rs) = ['.'] ++ r0 :: rs from rfl,
        getLast?_append_cons] at hc
      exact hrest_last c hc
  have hvhead : ∀ c, (ystr ++ '.' :: rest).head? = some c →
      c.isDigit = true := by
    intro c hc
    cases ystr with
    | nil => exact absurd rfl hne
    | cons c0 t0 =>
      simp only [List.cons_append, List.head?_cons, Option.some.injEq] at hc
      subst hc
      exact hdig c0 (List.mem_cons_self c0 t0)
  have hstrip_v : py_strip (ystr ++ '.' :: rest) = ystr ++ '.' :: rest := by
    apply strip_ends_eq_self
    · intro c hc
      exact digit_not_pyspace c (hvhead c hc)
    · intro c hc
      exact (hvlast c hc).1
  have hquote_v : py_strip_quotes (ystr ++ '.' :: rest)
      = ystr ++ '.' :: rest := by
    apply strip_ends_eq_self
    · intro c hc
      simp only [decide_eq_false_iff_not]
      exact digit_ne_of c '"' (hvhead c hc) (by decide)
    · intro c hc
      simp only [decide_eq_false_iff_not]
      exact (hvlast c hc).2
  have hdl_head : ∀ c,
      ("date=".toList ++ (ystr ++ '.' :: rest)).head? = some c →
      isPySpace c = false := by
    intro c hc
    rw [show ("date=".toList ++ (ystr ++ '.' :: rest)).head? = some 'd'
      from rfl] at hc
    simp only [Option.some.injEq] at hc
    subst hc
    decide
  have hdl_last : ∀ c,
      ("date=".toList ++ (ystr ++ '.' :: rest)).getLast? = some c →
      isPySpace c = false := by
    intro c hc
    rw [show "date=".toList ++ (ystr ++ '.' :: rest)
        = ("date=".toList ++ ystr) ++ '.' :: rest from by rw [List.append_assoc],
      getLast?_append_cons] at hc
    exact (hvlast c (by rw [getLast?_append_cons]; exact hc)).1
  have hstrip_dl : py_strip ("date=".toList ++ (ystr ++ '.' :: rest))
      = "date=".toList ++ (ystr ++ '.' :: rest) :=
    strip_ends_eq_self _ _ hdl_head hdl_last
  have hmatch : is_date_line1 ("date=".toList ++ (ystr ++ '.' :: rest))
      = true := by
    unfold is_date_line1
    rw [hstrip_dl]
    exact isPrefixOf_append_self _ _
  have hfind : find_date_line is_date_line1 (py_split '\n' text)
      = some ("date=".toList ++ (ystr ++ '.' :: rest)) := by
    rw [hsplit]
    exact find_date_line_first _ pre post _ hpre hmatch
  have hno_eq_v : '=' ∉ ystr ++ '.' :: rest := by
    intro hm
    rcases List.mem_append.1 hm with h1 | h2
    · exact absurd (hdig '=' h1) (by decide)
    · rcases List.mem_cons.1 h2 with h3 | h4
      · exact absurd h3 (by decide)
      · exact hrest_eq h4
  have hsplit_eq : py_split '=' ("date=".toList ++ (ystr ++ '.' :: rest))
      = ["date".toList, ystr ++ '.' :: rest] := by
    rw [show "date=".toList ++ (ystr ++ '.' :: rest)
        = "date".toList ++ '=' :: (ystr ++ '.' :: rest) from rfl]
    rw [py_split_append_sep]
    rw [py_split_no_sep '=' "date".toList (by decide)]
    rw [py_split_no_sep '=' _ hno_eq_v]
    rfl
  have hlv : line_value ("date=".toList ++ (ystr ++ '.' :: rest))
      = ystr ++ '.' :: rest := by
    unfold line_value
    rw [hsplit_eq]
    simp only [List.getD_cons_succ, List.getD_cons_zero]
    rw [show py_strip (ystr ++ '.' :: rest) = ystr ++ '.' :: rest
      from hstrip_v]
    exact hquote_v
  have hdot : '.' ∉ ystr := fun hm => absurd (hdig '.' hm) (by decide)
  have hhead : (py_split '.' (ystr ++ '.' :: rest)).headD [] = ystr := by
    rw [py_split_append_sep, py_split_no_sep '.' ystr hdot]
    rfl
  unfold get_save_year get_save_year_body
  simp only [py_open, hfind, hlv, hhead, py_int_exc, hy]

/-- C4 witness: binary noise, then `date=1444.11.11`, then more noise —
extraction recovers 1444. -/
theorem get_save_year_first_date_line_witness :
    py_split '\n' "\x01binary\x02junk\ndate=1444.11.11\ntail".toList =
      ["\x01binary\x02junk".toList] ++
        ("date=".toList ++ ("1444".toList ++ '.' :: "11.11".toList))
          :: ["tail".toList] ∧
    (∀ l ∈ ["\x01binary\x02junk".toList], is_date_line1 l = false) ∧
    "1444".toList ≠ [] ∧
    (∀ c ∈ "1444".toList, c.isDigit = true) ∧
    py_int "1444".toList = some 1444 ∧
    '=' ∉ "11.11".toList ∧
    (∀ c, "11.11".toList.getLast? = some c → isPySpace c = false ∧ c ≠ '"') ∧
    get_save_year (some "\x01binary\x02junk\ndate=1444.11.11\ntail".toList)
      = some 1444 := by
  have hlast : ∀ c, "11.11".toList.getLast? = some c →
      isPySpace c = false ∧ c ≠ '"' := by
    intro c hc
    rw [show "11.11".toList.getLast? = some '1' from rfl] at hc
    simp only [Option.some.injEq] at hc
    subst hc
    exact ⟨by decide, by decide⟩
  refine ⟨by decide, by decide, by decide, by decide, rfl, by decide,
    hlast, ?_⟩
  exact get_save_year_first_date_line _ ["\x01binary\x02junk".toList]
    ["tail".toList] "1444".toList "11.11".toList 1444 (by decide) (by decide)
    (by decide) (by decide) rfl (by decide) hlast

/-- C5 counterexample: in `player=---\nplayer=SWE=1` the first `player=`
line has the trimmed value `---`, yet `get_player_tag` scans past it and
returns `SWE` from the second line — so the scan does not stop at the first
`player=` line, `---` does not force the absent/`UNKNOWN` result, and the
returned value is the text between the first and second `=` (`SWE`), not
everything after the first `=` (`SWE=1`). -/
theorem get_player_tag_scans_past_invalid :
    get_player_tag (some "player=---\nplayer=SWE=1".toList) = "SWE".toList ∧
    is_player_line1 "player=---".toList = true ∧
    line_value "player=---".toList = "---".toList ∧
    "SWE".toList ≠ "UNKNOWN".toList ∧
    "SWE".toList ≠ "SWE=1".toList :=
  ⟨rfl, rfl, rfl, by decide, by decide⟩

/-- C5 (amended): the tag scan takes the FIRST `player=` line whose value —
the text between the first and second `=`, trimmed of whitespace and
quotes — is nonempty and differs from `---`; lines with value `---` or empty
are skipped and scanning continues past them; if no line yields a valid
value (e.g. only `player=---`), the tag is absent and maps to `UNKNOWN`. -/
theorem get_player_tag_first_valid_wins :
    (∀ text pre post line t, py_split '\n' text = pre ++ line :: post →
      (∀ l ∈ pre, tag_of_line is_player_line1 l = none) →
      tag_of_line is_player_line1 line = some t →
      get_player_tag (some text) = t) ∧
    (∀ text, (∀ l ∈ py_split '\n' text, tag_of_line is_player_line1 l = none) →
      '\r' ∉ text → get_player_tag (some text) = "UNKNOWN".toList) := by
  constructor
  · intro text pre post line t hsplit hpre hline
    have hfind : find_tag is_player_line1 (py_split '\n' text) = some t := by
      rw [hsplit]
      exact find_tag_first _ pre post line t hpre hline
    simp [get_player_tag, get_player_tag_body, py_open, hfind]
  · intro text hall hcr
    have h1 : find_tag is_player_line1 (py_split '\n' text) = none :=
      find_tag_none _ _ hall
    have h2 : find_tag is_player_line2 (py_split '\n' (normNl text)) = none := by
      rw [normNl_eq_self text hcr]
      exact find_tag_none _ _ (fun l hl => tag_of_line2_none l (hall l hl))
    simp [get_player_tag, get_player_tag_body, py_open, h1, h2]

/-- C5 witness: `player=---` is skipped and the next line's `SWE` wins;
a file containing only `player=---` maps to `UNKNOWN`. -/
theorem get_player_tag_first_valid_wins_witness :
    (py_split '\n' "player=---\nplayer=SWE".toList =
      ["player=---".toList] ++ "player=SWE".toList :: [] ∧
     (∀ l ∈ ["player=---".toList], tag_of_line is_player_line1 l = none) ∧
     tag_of_line is_player_line1 "player=SWE".toList = some "SWE".toList ∧
     get_player_tag (some "player=---\nplayer=SWE".toList) = "SWE".toList) ∧
    ((∀ l ∈ py_split '\n' "player=---".toList,
        tag_of_line is_player_line1 l = none) ∧
     '\r' ∉ "player=---".toList ∧
     get_player_tag (some "player=---".toList) = "UNKNOWN".toList) := by
  refine ⟨⟨by decide, by decide, rfl, ?_⟩, by decide, by decide, ?_⟩
  · exact get_player_tag_first_valid_wins.1 _ ["player=---".toList] []
      "player=SWE".toList "SWE".toList rfl (by decide) rfl
  · exact get_player_tag_first_valid_wins.2 _ (by decide) (by decide)
